import Mathlib

/-!
Verification of the PostHog/housekeeper MCP query gateway.

This file gives a shallow embedding of the security-relevant functions of the
repository and proves or refutes the specification claims about them.

Modelling conventions:
* Go strings are byte strings.  All inputs relevant to the claims are ASCII,
  so we model a Go string as a `List Char` (named `Str`) and identify a byte
  with the code point of the character; `strings.ToLower`, `strings.TrimSpace`
  and friends are transcribed with their ASCII behaviour.
* Fallible Go functions returning `error` become `Except Str Unit`.
* Process-wide `sync.Map` stores become function maps `Str → Option _` inside
  an explicit state record; `Store`/`Delete` become pointwise updates.
* Values produced by `crypto/rand` (fresh codes, token strings) are passed in
  as explicit parameters, making the state transitions deterministic.
-/

/-- A Go string, modelled as its list of (ASCII) characters. -/
abbrev Str : Type := List Char

/-- The space character, written via its code point. -/
def spaceCh : Char := Char.ofNat 32

/-- The single-quote character. -/
def squoteCh : Char := Char.ofNat 39

/-- The double-quote character. -/
def dquoteCh : Char := Char.ofNat 34

/-- ASCII fragment of Go's `unicode.IsSpace`, as used by `strings.TrimSpace`. -/
def isGoSpace (c : Char) : Bool :=
  c == spaceCh || c == Char.ofNat 9 || c == Char.ofNat 10 || c == Char.ofNat 11 ||
    c == Char.ofNat 12 || c == Char.ofNat 13

/-- Embedding of Go `strings.TrimSpace`. -/
def trimSpace (s : Str) : Str :=
  ((s.dropWhile isGoSpace).reverse.dropWhile isGoSpace).reverse

/-- ASCII lower-casing of one character (Go `strings.ToLower` on ASCII). -/
def lowerChar (c : Char) : Char :=
  if 'A' ≤ c ∧ c ≤ 'Z' then Char.ofNat (c.toNat + 32) else c

/-- Embedding of Go `strings.ToLower` (ASCII fragment). -/
def strToLower (s : Str) : Str := s.map lowerChar

/-- Embedding of Go `strings.Contains` for a single-character needle. -/
def containsChar (s : Str) (c : Char) : Bool := s.contains c

/-- Embedding of Go `strings.ContainsAny`. -/
def containsAnyOf (s : Str) (chars : Str) : Bool := s.any (fun c => chars.contains c)

/-- Helper for `indexOfSub`: first index `≥ i` at which `pat` occurs. -/
def indexOfSubAux (pat : Str) : Str → Nat → Option Nat
  | [], i => if pat.isPrefixOf ([] : Str) then some i else none
  | c :: rest, i =>
    if pat.isPrefixOf (c :: rest) then some i else indexOfSubAux pat rest (i + 1)

/-- Embedding of Go `strings.Index` (`none` for Go's `-1`). -/
def indexOfSub (s pat : Str) : Option Nat := indexOfSubAux pat s 0

/-- Embedding of Go `strings.Contains`. -/
def containsSub (s pat : Str) : Bool := (indexOfSub s pat).isSome

/-- Embedding of Go `strings.Index(s, string(c))` returning `-1` when absent,
used where the Go code compares indices numerically. -/
def goIndexOfChar (s : Str) (c : Char) : Int :=
  match s.indexOf? c with
  | some i => (i : Int)
  | none => -1

/-- Embedding of Go `strings.LastIndex(s, string(c))` returning `-1` when absent. -/
def goLastIndexOfChar (s : Str) (c : Char) : Int :=
  match s.reverse.indexOf? c with
  | some j => (s.length : Int) - 1 - (j : Int)
  | none => -1

/-- The byte slice `s[a:b]` of a Go string. -/
def sliceStr (s : Str) (a b : Nat) : Str := (s.drop a).take (b - a)

/-- Embedding of Go `strings.SplitN(s, string(c), 2)`: `some (before, after)`
when the separator occurs, `none` when it does not (one part). -/
def splitOnceChar : Str → Char → Option (Str × Str)
  | [], _ => none
  | c :: rest, sep =>
    if c = sep then some ([], rest)
    else
      match splitOnceChar rest sep with
      | some pq => some (c :: pq.1, pq.2)
      | none => none

/-- Embedding of Go `strings.Join(parts, ", ")`. -/
def joinComma : List Str → Str
  | [] => []
  | [x] => x
  | x :: y :: rest => x ++ (", ").data ++ joinComma (y :: rest)

/-- Rendering of `fmt.Sprintf("%d", i)`. -/
def intToStr (i : Int) : Str :=
  if i < 0 then '-' :: Nat.toDigits 10 (-i).toNat else Nat.toDigits 10 i.toNat

/-- Result equality for the embedded validators is decidable, so concrete
runs can be checked by `decide`. -/
instance : DecidableEq (Except Str Unit) := fun x y =>
  match x, y with
  | Except.ok (), Except.ok () => isTrue rfl
  | Except.error a, Except.error b =>
    if h : a = b then isTrue (by rw [h]) else isFalse (by intro he; cases he; exact h rfl)
  | Except.ok _, Except.error _ => isFalse (by intro h; cases h)
  | Except.error _, Except.ok _ => isFalse (by intro h; cases h)

/-! ## mcp.go — query validator and query builder -/

/-- Helper for `stripQuotedLiterals`: the two booleans are the Go loop's
`inSingle` and `inDouble` states. -/
def stripQuotedAux : Bool → Bool → Str → Str
  | _, _, [] => []
  | true, inD, c :: rest =>
    if c = squoteCh then spaceCh :: stripQuotedAux false inD rest
    else spaceCh :: stripQuotedAux true inD rest
  | false, true, c :: rest =>
    if c = dquoteCh then spaceCh :: stripQuotedAux false false rest
    else spaceCh :: stripQuotedAux false true rest
  | false, false, c :: rest =>
    if c = squoteCh then spaceCh :: stripQuotedAux true false rest
    else if c = dquoteCh then spaceCh :: stripQuotedAux false true rest
    else c :: stripQuotedAux false false rest

/-- Embedding of `stripQuotedLiterals` (mcp.go:190-222): replaces the interior
and delimiters of single- and double-quoted runs with spaces, preserving length. -/
def stripQuotedLiterals (s : Str) : Str := stripQuotedAux false false s

/-- Position after the run of literal spaces starting at `i`
(mcp.go:153-155, the `for sanitized[start] == ' '` loop). -/
def skipSpacesFrom (s : Str) (i : Nat) : Nat :=
  i + ((s.drop i).takeWhile (fun c => c == spaceCh)).length

/-- Characters that terminate a captured FROM/JOIN target (mcp.go:158). -/
def isStopChar (c : Char) : Bool :=
  c == spaceCh || c == Char.ofNat 10 || c == Char.ofNat 9 || c == ',' || c == ')'

/-- Position of the first stop character at or after `i`
(mcp.go:157-160, the capture loop for the table reference). -/
def scanRefEnd (s : Str) (i : Nat) : Nat :=
  i + ((s.drop i).takeWhile (fun c => !isStopChar c)).length

/-- Validation of one captured FROM/JOIN target (mcp.go:162-183).  Transcribed
exactly: for a `clusterAllReplicas(`-prefixed token the code looks for `(` and
`)` inside the captured token and only checks the second comma-separated
argument when `close > open` holds. -/
def checkRef (ref : Str) : Except Str Unit :=
  if ("clusterallreplicas(").data.isPrefixOf (strToLower ref) then
    let op := goIndexOfChar ref '('
    let cl := goLastIndexOfChar ref ')'
    if op > 0 ∧ cl > op then
      let inner := sliceStr ref (op.toNat + 1) cl.toNat
      match splitOnceChar inner ',' with
      | some pq =>
        let tbl := trimSpace pq.2
        if ("system.").data.isPrefixOf (strToLower tbl) then Except.ok ()
        else Except.error (("clusterAllReplicas must target system.* tables").data)
      | none => Except.ok ()
    else Except.ok ()
  else
    if ("system.").data.isPrefixOf (strToLower ref) then Except.ok ()
    else Except.error ((("only system.* tables are allowed (found: ").data ++ ref))

/-- The scanning loop of mcp.go:144-185 for one token (`"from"` or `"join"`).
`fuel` is a structural bound on the number of iterations; each Go iteration
advances `idx` by at least the token length, so `s.length + 1` iterations
always suffice and the fuel-exhausted branch is unreachable. -/
def scanTokLoop (sanitized tokTrim : Str) : Nat → Nat → Except Str Unit
  | 0, _ => Except.error (("scan iteration bound exceeded").data)
  | fuel + 1, idx =>
    match indexOfSub (strToLower (sanitized.drop idx)) tokTrim with
    | none => Except.ok ()
    | some pos =>
      let start := skipSpacesFrom sanitized (idx + pos + tokTrim.length)
      let stop := scanRefEnd sanitized start
      let ref := trimSpace (sliceStr sanitized start stop)
      match checkRef ref with
      | Except.error e => Except.error e
      | Except.ok _ => scanTokLoop sanitized tokTrim fuel stop

/-- The FROM/JOIN target validation of mcp.go:141-186: the Go code iterates
the tokens `" from "` and `" join "`, trimming each before searching. -/
def scanTargets (sanitized : Str) : Except Str Unit :=
  match scanTokLoop sanitized (trimSpace ((" from ").data)) (sanitized.length + 1) 0 with
  | Except.error e => Except.error e
  | Except.ok _ => scanTokLoop sanitized (trimSpace ((" join ").data)) (sanitized.length + 1) 0

/-- The forbidden write/DDL keyword list of mcp.go:134, in source order. -/
def forbiddenKeywords : List Str :=
  [(" insert ").data, (" alter ").data, (" update ").data, (" delete ").data,
   (" attach ").data, (" detach ").data, (" drop ").data, (" create ").data,
   (" truncate ").data, (" kill ").data, (" optimize ").data, (" grant ").data,
   (" revoke ").data, (" set ").data, (" use ").data]

/-- Embedding of `validateFreeformSQL` (mcp.go:119-188). -/
def validateFreeformSQL (sql : Str) : Except Str Unit :=
  let s := trimSpace sql
  if s = [] then Except.error (("sql is empty").data)
  else if containsChar s ';' then Except.error (("multiple statements are not allowed").data)
  else
    let sanitized := stripQuotedLiterals s
    let lower := strToLower (trimSpace sanitized)
    if !(("select ").data.isPrefixOf lower || ("with ").data.isPrefixOf lower) then
      Except.error (("only SELECT/WITH queries are allowed").data)
    else
      let lpad := spaceCh :: (lower ++ [spaceCh])
      match forbiddenKeywords.find? (fun kw => containsSub lpad kw) with
      | some _ => Except.error (("forbidden keyword detected").data)
      | none => scanTargets sanitized

/-- The `queryArgs` record of mcp.go:12-19 (`whereClause` is the `Where`
field; `where` is reserved in Lean). -/
structure QueryArgs where
  table : Str
  columns : List Str
  whereClause : Str
  orderBy : Str
  limit : Int
  sql : Str
deriving DecidableEq

/-- The characters `";\n\r\t"` rejected by the structured validator (mcp.go:36). -/
def badWS : Str := (";\n\r\t").data

/-- Embedding of `validateQueryArgs` (mcp.go:23-51).  The Go column loop
returns the first offending column's error; it is transcribed with `find?`. -/
def validateQueryArgs (a : QueryArgs) : Except Str Unit :=
  if trimSpace a.sql ≠ [] then validateFreeformSQL a.sql
  else if a.table = [] then Except.error (("table is required (or provide 'sql')").data)
  else
    -- the Go code binds t := strings.TrimSpace(a.Table); inlined here
    if !(("system.").data.isPrefixOf (trimSpace a.table)) then
      Except.error (("only system.* tables are allowed").data)
    else if containsAnyOf (trimSpace a.table) badWS then
      Except.error (("invalid table name").data)
    else
      match a.columns.find? (fun c => containsAnyOf c badWS || c.isEmpty) with
      | some c => Except.error ((("invalid column name: ").data ++ c))
      | none =>
        if containsChar a.whereClause ';' || containsChar a.orderBy ';' then
          Except.error (("invalid clause").data)
        else if a.limit < 0 then Except.error (("limit must be >= 0").data)
        else Except.ok ()

/-- The query-building part of `runClickhouseQuery` (mcp.go:60-85): free-form
SQL is passed through verbatim; a structured request is rendered as
`SELECT cols FROM clusterAllReplicas(cluster, table) [WHERE] [ORDER BY] [LIMIT]`.
The connection handling and row streaming around it are I/O and are not part
of any claim about the SQL text. -/
def buildClickhouseQuery (cluster : Str) (a : QueryArgs) : Str :=
  if trimSpace a.sql ≠ [] then a.sql
  else
    ("SELECT ").data ++
      (if a.columns ≠ [] then joinComma a.columns else ("*").data) ++
      (" FROM clusterAllReplicas(").data ++ cluster ++ (", ").data ++ a.table ++ (")").data ++
      (if a.whereClause ≠ [] then (" WHERE ").data ++ a.whereClause else []) ++
      (if a.orderBy ≠ [] then (" ORDER BY ").data ++ a.orderBy else []) ++
      (if a.limit > 0 then (" LIMIT ").data ++ intToStr a.limit else [])

/-! ## Behavioural checks of the embedding against the repository's test
expectations (mcp test file: valid SELECT admitted, foreign schema rejected,
multiple statements rejected, quoted literals blanked). -/

example : stripQuotedLiterals (("a = 'x' b").data) = ("a =     b").data := by decide

example : validateFreeformSQL (("SELECT * FROM system.query_log WHERE x > 1").data) =
    Except.ok () := by decide

example : validateFreeformSQL (("SELECT * FROM users.data").data) =
    Except.error ((("only system.* tables are allowed (found: ").data ++ ("users.data").data)) := by
  decide

example : validateFreeformSQL (("SELECT 1; DROP TABLE x").data) =
    Except.error (("multiple statements are not allowed").data) := by decide

/-! ## Claims C1–C5 -/

/-- C1: the claim states that for a FROM/JOIN target of the form
`clusterAllReplicas(cluster, T)` the second argument `T` is checked against
the allowed set and that any input whose wrapped target lies outside the
allowed set is rejected.  The code does not do this: the captured token stops
at the first comma or closing parenthesis (mcp.go:158), so the captured `ref`
never contains `)`, the guard `close > open` (mcp.go:168) is never true, and
the second argument is never inspected.  `validateFreeformSQL` therefore
admits a query whose `clusterAllReplicas` target is the foreign table
`users.data`, contradicting the claim and the function's own doc comment
(mcp.go:117-118: "references only system.* tables (including inside
clusterAllReplicas())").  The same foreign table unwrapped is rejected, so
the failure is specific to the `clusterAllReplicas` unwrap. -/
theorem C1_clusterAllReplicas_target_unchecked :
    validateFreeformSQL (("SELECT * FROM clusterAllReplicas(default, users.data)").data) =
        Except.ok () ∧
      validateFreeformSQL (("SELECT * FROM users.data").data) =
        Except.error ((("only system.* tables are allowed (found: ").data ++
          ("users.data").data)) := by decide

/-- C2: every input admitted by `validateFreeformSQL` is non-empty after
trimming, contains no semicolon, begins (lower-cased, trimmed,
quote-stripped) with `select ` or `with `, and its space-padded lower-cased
quote-stripped form contains none of the fifteen forbidden keywords. -/
theorem C2_freeform_admission_conditions (sql : Str)
    (h : validateFreeformSQL sql = Except.ok ()) :
    trimSpace sql ≠ [] ∧
    containsChar (trimSpace sql) ';' = false ∧
    (("select ").data.isPrefixOf
        (strToLower (trimSpace (stripQuotedLiterals (trimSpace sql)))) = true ∨
      ("with ").data.isPrefixOf
        (strToLower (trimSpace (stripQuotedLiterals (trimSpace sql)))) = true) ∧
    ∀ kw ∈ forbiddenKeywords,
      containsSub
        (spaceCh ::
          (strToLower (trimSpace (stripQuotedLiterals (trimSpace sql))) ++ [spaceCh])) kw
        = false := by
  unfold validateFreeformSQL at h
  by_cases h1 : trimSpace sql = []
  · simp [h1] at h
  · rw [if_neg h1] at h
    by_cases h2 : containsChar (trimSpace sql) ';' = true
    · simp [h2] at h
    · rw [Bool.not_eq_true] at h2
      rw [h2] at h
      simp only [if_false, Bool.false_eq_true] at h
      by_cases h3 :
          (("select ").data.isPrefixOf
              (strToLower (trimSpace (stripQuotedLiterals (trimSpace sql)))) ||
            ("with ").data.isPrefixOf
              (strToLower (trimSpace (stripQuotedLiterals (trimSpace sql))))) = true
      · rw [h3] at h
        simp only [Bool.not_true, Bool.false_eq_true, if_false] at h
        refine ⟨h1, h2, ?_, ?_⟩
        · rcases Bool.or_eq_true_iff.mp h3 with h3a | h3b
          · exact Or.inl h3a
          · exact Or.inr h3b
        · intro kw hkw
          cases hfind : forbiddenKeywords.find?
              (fun kw => containsSub
                (spaceCh ::
                  (strToLower (trimSpace (stripQuotedLiterals (trimSpace sql))) ++ [spaceCh]))
                kw) with
          | none =>
            have := List.find?_eq_none.mp hfind kw hkw
            simpa using this
          | some kw0 =>
            rw [hfind] at h
            cases h
      · rw [Bool.not_eq_true] at h3
        rw [h3] at h
        simp at h

/-- C2 witness: a concrete admitted query. -/
def c2Input : Str := ("select name from system.tables").data

/-- C2 witness: the admission conditions hold for the concrete admitted
query `select name from system.tables`. -/
theorem C2_freeform_admission_conditions_witness :
    trimSpace c2Input ≠ [] ∧
    containsChar (trimSpace c2Input) ';' = false ∧
    (("select ").data.isPrefixOf
        (strToLower (trimSpace (stripQuotedLiterals (trimSpace c2Input)))) = true ∨
      ("with ").data.isPrefixOf
        (strToLower (trimSpace (stripQuotedLiterals (trimSpace c2Input)))) = true) ∧
    ∀ kw ∈ forbiddenKeywords,
      containsSub
        (spaceCh ::
          (strToLower (trimSpace (stripQuotedLiterals (trimSpace c2Input))) ++ [spaceCh])) kw
        = false :=
  C2_freeform_admission_conditions c2Input (by decide)

/-- C3 counterexample: a structured request whose `where` clause contains a
newline is admitted by `validateQueryArgs`, refuting the claim that a
newline in `where` rejects the call (the code checks `where`/`order_by` for
semicolons only, mcp.go:44). -/
theorem C3_where_newline_not_rejected :
    validateQueryArgs ⟨("system.query_log").data, [], ("a\nb").data, [], 0, []⟩ =
      Except.ok () := by decide

/-- C3 amended: `validateQueryArgs` rejects a structured request whenever the
trimmed table or any column contains a semicolon, newline, carriage return,
or tab, or the `where` or `order_by` expression contains a semicolon. -/
theorem C3_structured_injection_rejection (a : QueryArgs)
    (hstruct : trimSpace a.sql = [])
    (hbad : containsAnyOf (trimSpace a.table) badWS = true ∨
      (∃ c ∈ a.columns, containsAnyOf c badWS = true) ∨
      containsChar a.whereClause ';' = true ∨
      containsChar a.orderBy ';' = true) :
    validateQueryArgs a ≠ Except.ok () := by
  intro hok
  unfold validateQueryArgs at hok
  rw [if_neg (by simp [hstruct])] at hok
  by_cases ht : a.table = []
  · simp [ht] at hok
  · rw [if_neg ht] at hok
    by_cases hp : (!(("system.").data.isPrefixOf (trimSpace a.table))) = true
    · rw [hp] at hok; simp at hok
    · rw [Bool.not_eq_true] at hp
      rw [hp] at hok
      simp only [Bool.false_eq_true, if_false] at hok
      by_cases hws : containsAnyOf (trimSpace a.table) badWS = true
      · rw [hws] at hok; simp at hok
      · rw [Bool.not_eq_true] at hws
        rw [hws] at hok
        simp only [Bool.false_eq_true, if_false] at hok
        cases hfind : a.columns.find? (fun c => containsAnyOf c badWS || c.isEmpty) with
        | some c => rw [hfind] at hok; cases hok
        | none =>
          rw [hfind] at hok
          by_cases hwo : (containsChar a.whereClause ';' || containsChar a.orderBy ';') = true
          · rw [hwo] at hok; simp at hok
          · rw [Bool.not_eq_true] at hwo
            rcases hbad with hb | ⟨c, hc, hcb⟩ | hb | hb
            · rw [hb] at hws; cases hws
            · have := List.find?_eq_none.mp hfind c hc
              simp [hcb] at this
            · simp [hb] at hwo
            · simp [hb] at hwo

/-- C3 amended witness: a semicolon in the `where` clause is rejected. -/
theorem C3_structured_injection_rejection_witness :
    validateQueryArgs ⟨("system.t").data, [], ("x;").data, [], 0, []⟩ ≠ Except.ok () :=
  C3_structured_injection_rejection _ (by decide)
    (Or.inr (Or.inr (Or.inl (by decide))))

/-- C4: the claim (and the repository's own mcp test file, which expects
`models.predictions` to validate when `clickhouse.allowed_databases`
includes `models`, and `SYSTEM.query_log` to be accepted case-insensitively)
requires a configurable, case-insensitively matched allowed-database set.
`validateQueryArgs` instead hard-codes a case-sensitive `system.` prefix
check (mcp.go:33), rejecting both inputs. -/
theorem C4_allowed_databases_not_honored :
    validateQueryArgs ⟨("models.predictions").data, [("id").data, ("score").data], [], [], 5, []⟩ =
        Except.error (("only system.* tables are allowed").data) ∧
      validateQueryArgs ⟨("SYSTEM.query_log").data, [], [], [], 0, []⟩ =
        Except.error (("only system.* tables are allowed").data) := by decide

/-- Auxiliary: `indexOfSubAux` finds `pat` inside `x ++ (pat ++ y)`. -/
theorem indexOfSubAux_isSome (pat y : Str) :
    ∀ (x : Str) (i : Nat), (indexOfSubAux pat (x ++ (pat ++ y)) i).isSome = true := by
  have hpre : pat.isPrefixOf (pat ++ y) = true := by
    induction pat with
    | nil => cases y <;> rfl
    | cons b bs ih => simp only [List.cons_append, List.isPrefixOf, beq_self_eq_true,
        Bool.true_and]; exact ih
  intro x
  induction x with
  | nil =>
    intro i
    simp only [List.nil_append]
    cases hpy : pat ++ y with
    | nil =>
      have hp : pat = [] := (List.append_eq_nil.mp hpy).1
      subst hp
      rfl
    | cons a as =>
      rw [hpy] at hpre
      rw [indexOfSubAux]
      split
      · rfl
      · next hfalse => exact absurd hpre hfalse
  | cons c rest ih =>
    intro i
    rw [List.cons_append, indexOfSubAux]
    split
    · rfl
    · exact ih (i + 1)

/-- Auxiliary: a string that decomposes as `x ++ pat ++ y` contains `pat`. -/
theorem containsSub_of_decomp (s pat : Str) (x y : Str) (hs : s = x ++ (pat ++ y)) :
    containsSub s pat = true := by
  subst hs
  unfold containsSub indexOfSub
  exact indexOfSubAux_isSome pat y x 0

/-- C5 counterexample: the built SQL for a structured request on
`models.predictions` (whose database prefix is not `system`) still wraps the
table in `clusterAllReplicas`, refuting the claim that the fan-out is applied
only to tables of the configured system database (the wrap at mcp.go:72 is
unconditional). -/
theorem C5_fanout_applied_to_nonsystem_table :
    buildClickhouseQuery (("test_cluster").data)
        ⟨("models.predictions").data, [("id").data, ("score").data],
          ("score > 0.5").data, [], 5, []⟩ =
      ("SELECT id, score FROM clusterAllReplicas(test_cluster, models.predictions) WHERE score > 0.5 LIMIT 5").data ∧
    ("system.").data.isPrefixOf (strToLower (("models.predictions").data)) = false := by decide

/-- C5 amended: in free-form mode the caller's SQL is passed through
verbatim; in structured mode the built SQL always contains the
`clusterAllReplicas(cluster, table)` fan-out wrapper, for every table. -/
theorem C5_query_building_modes (cluster : Str) (a : QueryArgs) :
    (trimSpace a.sql ≠ [] → buildClickhouseQuery cluster a = a.sql) ∧
    (trimSpace a.sql = [] →
      containsSub (buildClickhouseQuery cluster a)
        ((" FROM clusterAllReplicas(").data ++ cluster ++ (", ").data ++ a.table ++ (")").data)
        = true) := by
  constructor
  · intro hne
    unfold buildClickhouseQuery
    rw [if_pos hne]
  · intro heq
    unfold buildClickhouseQuery
    rw [if_neg (by simp [heq])]
    apply containsSub_of_decomp _ _
      (("SELECT ").data ++ (if a.columns ≠ [] then joinComma a.columns else ("*").data))
      ((if a.whereClause ≠ [] then (" WHERE ").data ++ a.whereClause else []) ++
        (if a.orderBy ≠ [] then (" ORDER BY ").data ++ a.orderBy else []) ++
        (if a.limit > 0 then (" LIMIT ").data ++ intToStr a.limit else []))
    simp [List.append_assoc]

/-- C5 amended witness: both modes at concrete inputs. -/
theorem C5_query_building_modes_witness :
    (trimSpace (("select 1").data) ≠ [] →
      buildClickhouseQuery (("c1").data)
        ⟨("system.one").data, [], [], [], 0, ("select 1").data⟩ = ("select 1").data) ∧
    (trimSpace (("select 1").data) = [] →
      containsSub
        (buildClickhouseQuery (("c1").data)
          ⟨("system.one").data, [], [], [], 0, ("select 1").data⟩)
        ((" FROM clusterAllReplicas(").data ++ ("c1").data ++ (", ").data ++
          ("system.one").data ++ (")").data) = true) :=
  C5_query_building_modes (("c1").data) ⟨("system.one").data, [], [], [], 0, ("select 1").data⟩


/-! ## SHA-256 and base64url (oauth.go:708-722 dependencies)

`validatePKCE` calls `crypto/sha256` and `encoding/base64.RawURLEncoding`
from the Go standard library.  Both are transcribed concretely: SHA-256 per
FIPS 180-4 over byte lists (bytes and 32-bit words are `Nat` with explicit
`% 2^32` where overflow matters), and unpadded base64url per RFC 4648 §5. -/

/-- Truncation to a 32-bit word. -/
def w32 (n : Nat) : Nat := n % 4294967296

/-- 32-bit right rotation (for `x < 2^32`). -/
def rotr32 (k x : Nat) : Nat := w32 ((x >>> k) ||| (x <<< (32 - k)))

/-- SHA-256 `Ch` function. -/
def shaCh (x y z : Nat) : Nat := (x &&& y) ^^^ ((x ^^^ 4294967295) &&& z)

/-- SHA-256 `Maj` function. -/
def shaMaj (x y z : Nat) : Nat := (x &&& y) ^^^ (x &&& z) ^^^ (y &&& z)

/-- SHA-256 Σ₀. -/
def bigSigma0 (x : Nat) : Nat := rotr32 2 x ^^^ rotr32 13 x ^^^ rotr32 22 x

/-- SHA-256 Σ₁. -/
def bigSigma1 (x : Nat) : Nat := rotr32 6 x ^^^ rotr32 11 x ^^^ rotr32 25 x

/-- SHA-256 σ₀. -/
def smallSigma0 (x : Nat) : Nat := rotr32 7 x ^^^ rotr32 18 x ^^^ (x >>> 3)

/-- SHA-256 σ₁. -/
def smallSigma1 (x : Nat) : Nat := rotr32 17 x ^^^ rotr32 19 x ^^^ (x >>> 10)

/-- Big-endian byte rendering of `n` in `k` bytes. -/
def toBytesBE (k n : Nat) : List Nat :=
  (List.range k).map (fun i => (n >>> (8 * (k - 1 - i))) % 256)

/-- SHA-256 message padding: `0x80`, zeros to 56 mod 64, then the 64-bit
big-endian bit length. -/
def sha256Pad (msg : List Nat) : List Nat :=
  msg ++ 128 :: List.replicate ((64 + 56 - ((msg.length + 1) % 64)) % 64) 0 ++
    toBytesBE 8 (msg.length * 8)

/-- Group four big-endian bytes into one 32-bit word. -/
def bytesToWords : List Nat → List Nat
  | a :: b :: c :: d :: rest => (((a * 256 + b) * 256 + c) * 256 + d) :: bytesToWords rest
  | _ => []

/-- Extend the 16 block words to the 64-word message schedule. -/
def scheduleAux : List Nat → Nat → List Nat
  | ws, 0 => ws
  | ws, n + 1 =>
    let l := ws.length
    scheduleAux
      (ws ++ [w32 (smallSigma1 (ws.getD (l - 2) 0) + ws.getD (l - 7) 0 +
        smallSigma0 (ws.getD (l - 15) 0) + ws.getD (l - 16) 0)]) n

/-- The 64-word message schedule of one block. -/
def schedule (block : List Nat) : List Nat := scheduleAux (bytesToWords block) 48

/-- The eight SHA-256 working registers. -/
structure SHAState where
  a : Nat
  b : Nat
  c : Nat
  d : Nat
  e : Nat
  f : Nat
  g : Nat
  h : Nat
deriving DecidableEq

/-- The SHA-256 initial hash value. -/
def shaInit : SHAState :=
  ⟨1779033703, 3144134277, 1013904242, 2773480762,
   1359893119, 2600822924, 528734635, 1541459225⟩

/-- The 64 SHA-256 round constants. -/
def shaK : List Nat :=
  [1116352408, 1899447441, 3049323471, 3921009573, 961987163, 1508970993,
   2453635748, 2870763221, 3624381080, 310598401, 607225278, 1426881987,
   1925078388, 2162078206, 2614888103, 3248222580, 3835390401, 4022224774,
   264347078, 604807628, 770255983, 1249150122, 1555081692, 1996064986,
   2554220882, 2821834349, 2952996808, 3210313671, 3336571891, 3584528711,
   113926993, 338241895, 666307205, 773529912, 1294757372, 1396182291,
   1695183700, 1986661051, 2177026350, 2456956037, 2730485921, 2820302411,
   3259730800, 3345764771, 3516065817, 3600352804, 4094571909, 275423344,
   430227734, 506948616, 659060556, 883997877, 958139571, 1322822218,
   1537002063, 1747873779, 1955562222, 2024104815, 2227730452, 2361852424,
   2428436474, 2756734187, 3204031479, 3329325298]

/-- One SHA-256 compression round. -/
def shaRound (st : SHAState) (kw : Nat × Nat) : SHAState :=
  let t1 := w32 (st.h + bigSigma1 st.e + shaCh st.e st.f st.g + kw.1 + kw.2)
  let t2 := w32 (bigSigma0 st.a + shaMaj st.a st.b st.c)
  ⟨w32 (t1 + t2), st.a, st.b, st.c, w32 (st.d + t1), st.e, st.f, st.g⟩

/-- Compression of one 64-byte block. -/
def compressBlock (st : SHAState) (block : List Nat) : SHAState :=
  let fin := (shaK.zip (schedule block)).foldl shaRound st
  ⟨w32 (st.a + fin.a), w32 (st.b + fin.b), w32 (st.c + fin.c), w32 (st.d + fin.d),
   w32 (st.e + fin.e), w32 (st.f + fin.f), w32 (st.g + fin.g), w32 (st.h + fin.h)⟩

/-- Helper for `chunks64`; the fuel is structural and each step consumes 64
bytes, so `l.length + 1` fuel always suffices. -/
def chunks64Aux : Nat → List Nat → List (List Nat)
  | 0, _ => []
  | _ + 1, [] => []
  | fuel + 1, l => l.take 64 :: chunks64Aux fuel (l.drop 64)

/-- Split a byte list into 64-byte chunks. -/
def chunks64 (l : List Nat) : List (List Nat) := chunks64Aux (l.length + 1) l

/-- Big-endian byte rendering of the final hash state. -/
def shaDigest (fin : SHAState) : List Nat :=
  toBytesBE 4 fin.a ++ toBytesBE 4 fin.b ++ toBytesBE 4 fin.c ++ toBytesBE 4 fin.d ++
    toBytesBE 4 fin.e ++ toBytesBE 4 fin.f ++ toBytesBE 4 fin.g ++ toBytesBE 4 fin.h

/-- SHA-256 of a byte list: 32 digest bytes. -/
def sha256 (msg : List Nat) : List Nat :=
  shaDigest ((chunks64 (sha256Pad msg)).foldl compressBlock shaInit)

-- FIPS 180-4 test vector: sha256("abc")
example : sha256 [97, 98, 99] =
    [186, 120, 22, 191, 143, 1, 207, 234, 65, 65, 64, 222, 93, 174, 34, 35,
     176, 3, 97, 163, 150, 23, 122, 156, 180, 16, 255, 97, 242, 0, 21, 173] := by decide

/-- The base64url alphabet (RFC 4648 §5). -/
def b64Alphabet : Str :=
  ("ABCDEFGHIJKLMNOPQRSTUVWXYZabcdefghijklmnopqrstuvwxyz0123456789-_").data

/-- The alphabet character of a 6-bit value. -/
def b64Char (n : Nat) : Char := b64Alphabet.getD n 'A'

/-- The 6-bit value of an alphabet character. -/
def b64Val (c : Char) : Nat := b64Alphabet.indexOf c

/-- Unpadded base64url encoding of a byte list
(Go `base64.RawURLEncoding.EncodeToString`). -/
def b64urlEncode : List Nat → Str
  | [] => []
  | [a] => [b64Char (a / 4), b64Char (a % 4 * 16)]
  | [a, b] => [b64Char (a / 4), b64Char (a % 4 * 16 + b / 16), b64Char (b % 16 * 4)]
  | a :: b :: c :: rest =>
    b64Char (a / 4) :: b64Char (a % 4 * 16 + b / 16) ::
      b64Char (b % 16 * 4 + c / 64) :: b64Char (c % 64) :: b64urlEncode rest

/-- Unpadded base64url decoding (used only to prove the encoder injective). -/
def b64urlDecode : Str → List Nat
  | [] => []
  | [_] => []
  | [w, x] => [b64Val w * 4 + b64Val x / 16]
  | [w, x, y] => [b64Val w * 4 + b64Val x / 16, b64Val x % 16 * 16 + b64Val y / 4]
  | w :: x :: y :: z :: rest =>
    (b64Val w * 4 + b64Val x / 16) :: (b64Val x % 16 * 16 + b64Val y / 4) ::
      (b64Val y % 4 * 64 + b64Val z) :: b64urlDecode rest

/-- Decoding inverts encoding on each alphabet value. -/
theorem b64Val_b64Char : ∀ n, n < 64 → b64Val (b64Char n) = n := by decide

/-- Decoding inverts encoding on byte lists. -/
theorem b64url_roundtrip : ∀ l : List Nat, (∀ b ∈ l, b < 256) →
    b64urlDecode (b64urlEncode l) = l := by
  intro l
  induction l using b64urlEncode.induct with
  | case1 => intro _; rfl
  | case2 a =>
    intro hb
    have ha : a < 256 := hb a (by simp)
    simp only [b64urlEncode, b64urlDecode]
    rw [b64Val_b64Char _ (by omega), b64Val_b64Char _ (by omega)]
    simp only [List.cons.injEq, and_true]
    omega
  | case3 a b =>
    intro hb
    have ha : a < 256 := hb a (by simp)
    have hbb : b < 256 := hb b (by simp)
    simp only [b64urlEncode, b64urlDecode]
    rw [b64Val_b64Char _ (by omega), b64Val_b64Char _ (by omega),
      b64Val_b64Char _ (by omega)]
    simp only [List.cons.injEq, and_true]
    constructor
    · omega
    · omega
  | case4 a b c rest ih =>
    intro hb
    have ha : a < 256 := hb a (by simp)
    have hbb : b < 256 := hb b (by simp)
    have hc : c < 256 := hb c (by simp)
    have hrest : ∀ x ∈ rest, x < 256 := fun x hx => hb x (by simp [hx])
    simp only [b64urlEncode]
    have hdec : b64urlDecode
        (b64Char (a / 4) :: b64Char (a % 4 * 16 + b / 16) ::
          b64Char (b % 16 * 4 + c / 64) :: b64Char (c % 64) :: b64urlEncode rest) =
        (b64Val (b64Char (a / 4)) * 4 + b64Val (b64Char (a % 4 * 16 + b / 16)) / 16) ::
          (b64Val (b64Char (a % 4 * 16 + b / 16)) % 16 * 16 +
            b64Val (b64Char (b % 16 * 4 + c / 64)) / 4) ::
          (b64Val (b64Char (b % 16 * 4 + c / 64)) % 4 * 64 + b64Val (b64Char (c % 64))) ::
          b64urlDecode (b64urlEncode rest) := rfl
    rw [hdec, ih hrest,
      b64Val_b64Char _ (by omega), b64Val_b64Char _ (by omega),
      b64Val_b64Char _ (by omega), b64Val_b64Char _ (by omega)]
    simp only [List.cons.injEq, and_true]
    refine ⟨by omega, by omega, by omega⟩

/-- The unpadded base64url encoder is injective on byte lists. -/
theorem b64urlEncode_injective (l1 l2 : List Nat) (h1 : ∀ b ∈ l1, b < 256)
    (h2 : ∀ b ∈ l2, b < 256) (he : b64urlEncode l1 = b64urlEncode l2) : l1 = l2 :=
  calc l1 = b64urlDecode (b64urlEncode l1) := (b64url_roundtrip l1 h1).symm
    _ = b64urlDecode (b64urlEncode l2) := by rw [he]
    _ = l2 := b64url_roundtrip l2 h2

/-- Big-endian byte renderings are bytes. -/
theorem toBytesBE_lt (k n : Nat) : ∀ b ∈ toBytesBE k n, b < 256 := by
  intro b hb
  simp only [toBytesBE, List.mem_map] at hb
  obtain ⟨i, _, rfl⟩ := hb
  exact Nat.mod_lt _ (by omega)

/-- Digest renderings consist of bytes. -/
theorem shaDigest_lt (st : SHAState) : ∀ b ∈ shaDigest st, b < 256 := by
  intro b hb
  simp only [shaDigest, List.mem_append] at hb
  rcases hb with (((((((hb | hb) | hb) | hb) | hb) | hb) | hb) | hb) <;>
    exact toBytesBE_lt _ _ _ hb

/-- SHA-256 digests consist of bytes. -/
theorem sha256_lt (msg : List Nat) : ∀ b ∈ sha256 msg, b < 256 :=
  fun b hb => shaDigest_lt _ b hb

/-- SHA-256 digests have 32 bytes. -/
theorem sha256_length (msg : List Nat) : (sha256 msg).length = 32 := by
  simp [sha256, shaDigest, toBytesBE]

/-- SHA-256 digests are non-empty. -/
theorem sha256_ne_nil (msg : List Nat) : sha256 msg ≠ [] := by
  intro h
  have hl := sha256_length msg
  rw [h] at hl
  simp at hl

/-- Encoding a non-empty byte list yields a non-empty string. -/
theorem b64urlEncode_ne_nil (l : List Nat) (h : l ≠ []) : b64urlEncode l ≠ [] := by
  cases l with
  | nil => exact absurd rfl h
  | cons a rest =>
    cases rest with
    | nil => simp [b64urlEncode]
    | cons b rest2 =>
      cases rest2 with
      | nil => simp [b64urlEncode]
      | cons c rest3 => simp [b64urlEncode]

/-! ## oauth.go — PKCE validation -/

/-- The UTF-8 bytes of a Go string (`[]byte(s)`); for the ASCII strings of
this development the bytes are the code points. -/
def strBytes (s : Str) : List Nat := s.map Char.toNat

/-- Embedding of `validatePKCE` (oauth.go:708-722): an empty stored challenge
disables PKCE; method `S256` compares the unpadded base64url SHA-256 of the
verifier to the challenge; any other method compares the verifier verbatim. -/
def validatePKCE (challenge method verifier : Str) : Bool :=
  if challenge = [] then true
  else
    (if method = ("S256").data then b64urlEncode (sha256 (strBytes verifier))
     else verifier) == challenge

/-- C7: `validatePKCE` with a non-empty challenge and method `S256` succeeds
exactly when the unpadded base64url SHA-256 of the verifier equals the
challenge; consequently the round trip always verifies, and any verifier with
a different hash is refused; method `plain` compares verbatim; an empty
stored challenge accepts every verifier. -/
theorem C7_validatePKCE_characterization :
    (∀ c v : Str, c ≠ [] →
      (validatePKCE c (("S256").data) v = true ↔
        b64urlEncode (sha256 (strBytes v)) = c)) ∧
    (∀ v : Str,
      validatePKCE (b64urlEncode (sha256 (strBytes v))) (("S256").data) v = true) ∧
    (∀ v w : Str, sha256 (strBytes w) ≠ sha256 (strBytes v) →
      validatePKCE (b64urlEncode (sha256 (strBytes v))) (("S256").data) w = false) ∧
    (∀ c v : Str, c ≠ [] → (validatePKCE c (("plain").data) v = true ↔ v = c)) ∧
    (∀ m v : Str, validatePKCE [] m v = true) := by
  refine ⟨?_, ?_, ?_, ?_, ?_⟩
  · intro c v hc
    unfold validatePKCE
    rw [if_neg hc, if_pos rfl]
    simp
  · intro v
    unfold validatePKCE
    by_cases h : b64urlEncode (sha256 (strBytes v)) = []
    · rw [if_pos h]
    · rw [if_neg h, if_pos rfl]
      simp
  · intro v w hne
    unfold validatePKCE
    have hnnil : b64urlEncode (sha256 (strBytes v)) ≠ [] :=
      b64urlEncode_ne_nil _ (sha256_ne_nil _)
    rw [if_neg hnnil, if_pos rfl]
    rw [beq_eq_false_iff_ne]
    intro heq
    exact hne (b64urlEncode_injective _ _ (sha256_lt _) (sha256_lt _) heq)
  · intro c v hc
    unfold validatePKCE
    rw [if_neg hc, if_neg (by decide)]
    simp
  · intro m v
    rfl

set_option maxRecDepth 100000 in
/-- C7 witness: the characterization instantiated at concrete challenges,
methods and verifiers (including two verifiers with distinct hashes). -/
theorem C7_validatePKCE_characterization_witness :
    (validatePKCE (("x").data) (("S256").data) (("v").data) = true ↔
      b64urlEncode (sha256 (strBytes (("v").data))) = ("x").data) ∧
    validatePKCE (b64urlEncode (sha256 (strBytes (("v").data)))) (("S256").data)
      (("v").data) = true ∧
    validatePKCE (b64urlEncode (sha256 (strBytes (("a").data)))) (("S256").data)
      (("b").data) = false ∧
    (validatePKCE (("p").data) (("plain").data) (("q").data) = true ↔
      ("q").data = ("p").data) ∧
    validatePKCE [] (("m").data) (("z").data) = true :=
  ⟨C7_validatePKCE_characterization.1 _ _ (by decide),
   C7_validatePKCE_characterization.2.1 _,
   C7_validatePKCE_characterization.2.2.1 _ _ (by decide),
   C7_validatePKCE_characterization.2.2.2.1 _ _ (by decide),
   C7_validatePKCE_characterization.2.2.2.2 _ _⟩

/-! ## oauth.go — token endpoint, authorization_code grant

State model: the process-wide `sync.Map` stores of oauth.go:29-33 become
function maps inside `OAuthStore`.  `generateRandomString` /
`generateJWTWithAudience` outputs are passed in as the explicit parameters
`newAccessToken` / `newRefreshToken`; `time.Now()` is the parameter `now`
(seconds); `issuerFromRequest r` is the parameter `issuer`. -/

/-- `clientInfo` (oauth.go:35-41); the creation instant is irrelevant to the
claims and omitted. -/
structure ClientInfo where
  clientID : Str
  clientSecret : Str
  redirectURIs : List Str
  name : Str
deriving DecidableEq

/-- `authCodeInfo` (oauth.go:43-53). -/
structure AuthCodeInfo where
  code : Str
  clientID : Str
  redirectURI : Str
  scope : Str
  state : Str
  codeChallenge : Str
  challengeMethod : Str
  expiresAt : Nat
  userID : Str
deriving DecidableEq

/-- `tokenInfo` (oauth.go:55-63). -/
structure TokenStoreInfo where
  accessToken : Str
  refreshToken : Str
  clientID : Str
  userID : Str
  scope : Str
  expiresAt : Nat
  createdAt : Nat
deriving DecidableEq

/-- The in-memory OAuth stores (oauth.go:29-33). -/
structure OAuthStore where
  registeredClients : Str → Option ClientInfo
  authorizationCodes : Str → Option AuthCodeInfo
  accessTokens : Str → Option TokenStoreInfo
  refreshTokens : Str → Option TokenStoreInfo

/-- The form fields read by `handleAuthorizationCodeGrant` (oauth.go:495-500)
together with the optional HTTP Basic credentials (oauth.go:502-508). -/
structure TokenGrantForm where
  code : Str
  clientID : Str
  clientSecret : Str
  redirectURI : Str
  codeVerifier : Str
  resource : Str
  basicAuth : Option (Str × Str)
deriving DecidableEq

/-- Client credentials after the Basic-auth fallback of oauth.go:503-508:
when the form `client_id` or `client_secret` is empty and Basic credentials
are present, both are replaced. -/
def effectiveCreds (f : TokenGrantForm) : Str × Str :=
  if f.clientID = [] ∨ f.clientSecret = [] then
    match f.basicAuth with
    | some up => up
    | none => (f.clientID, f.clientSecret)
  else (f.clientID, f.clientSecret)

/-- Outcome of a token-endpoint grant: an `http.Error(w, msg, status)` or an
issued access/refresh token pair (with the scope echoed and the audience
baked into the JWT). -/
inductive GrantOutcome where
  | httpError (status : Nat) (message : Str)
  | issued (accessToken refreshToken scope audience : Str)
deriving DecidableEq

/-- The tail of `handleAuthorizationCodeGrant` after client authentication
(oauth.go:554-599): redirect-URI check, audience resolution, token issuance
and storage. -/
def finishCodeGrant (st : OAuthStore) (authCode : AuthCodeInfo) (f : TokenGrantForm)
    (cid : Str) (now : Nat) (issuer newAccessToken newRefreshToken : Str) :
    OAuthStore × GrantOutcome :=
  if authCode.redirectURI ≠ f.redirectURI then
    (st, GrantOutcome.httpError 400 (("redirect_uri mismatch").data))
  else
    let audience := if f.resource = [] then issuer else f.resource
    let tk : TokenStoreInfo :=
      ⟨newAccessToken, newRefreshToken, cid, authCode.userID, authCode.scope,
        now + 3600, now⟩
    (⟨st.registeredClients, st.authorizationCodes,
        fun k => if k = newAccessToken then some tk else st.accessTokens k,
        fun k => if k = newRefreshToken then some tk else st.refreshTokens k⟩,
      GrantOutcome.issued newAccessToken newRefreshToken authCode.scope audience)

/-- Embedding of `handleAuthorizationCodeGrant` (oauth.go:494-599): look up
the code; delete it immediately (one-time use, oauth.go:519-520); then check
expiry, client id, client secret (only when no `code_verifier` was supplied)
or PKCE, and redirect URI; finally issue tokens. -/
def handleAuthorizationCodeGrant (st : OAuthStore) (f : TokenGrantForm) (now : Nat)
    (issuer newAccessToken newRefreshToken : Str) : OAuthStore × GrantOutcome :=
  match st.authorizationCodes f.code with
  | none => (st, GrantOutcome.httpError 400 (("invalid authorization code").data))
  | some authCode =>
    let st1 : OAuthStore :=
      ⟨st.registeredClients,
        fun k => if k = f.code then none else st.authorizationCodes k,
        st.accessTokens, st.refreshTokens⟩
    if now > authCode.expiresAt then
      (st1, GrantOutcome.httpError 400 (("authorization code expired").data))
    else if authCode.clientID ≠ (effectiveCreds f).1 then
      (st1, GrantOutcome.httpError 401 (("client_id mismatch").data))
    else if f.codeVerifier = [] then
      match st1.registeredClients (effectiveCreds f).1 with
      | none => (st1, GrantOutcome.httpError 401 (("invalid client").data))
      | some client =>
        if client.clientSecret ≠ (effectiveCreds f).2 then
          (st1, GrantOutcome.httpError 401 (("invalid client_secret").data))
        else finishCodeGrant st1 authCode f (effectiveCreds f).1 now issuer
          newAccessToken newRefreshToken
    else
      if !(validatePKCE authCode.codeChallenge authCode.challengeMethod f.codeVerifier) then
        (st1, GrantOutcome.httpError 400 (("invalid code_verifier").data))
      else finishCodeGrant st1 authCode f (effectiveCreds f).1 now issuer
        newAccessToken newRefreshToken

/-- C6: redeeming an issued code deletes it from the store no matter how the
redemption proceeds, and a second redemption with the same code fails with
the invalid-grant 400. -/
theorem C6_authorization_code_single_redemption (st : OAuthStore) (f f2 : TokenGrantForm)
    (now now2 : Nat) (iss iss2 at1 rt1 at2 rt2 : Str)
    (hissued : (st.authorizationCodes f.code).isSome = true)
    (hsame : f2.code = f.code) :
    (handleAuthorizationCodeGrant st f now iss at1 rt1).1.authorizationCodes f.code
        = none ∧
      (handleAuthorizationCodeGrant (handleAuthorizationCodeGrant st f now iss at1 rt1).1
          f2 now2 iss2 at2 rt2).2
        = GrantOutcome.httpError 400 (("invalid authorization code").data) := by
  obtain ⟨a, ha⟩ := Option.isSome_iff_exists.mp hissued
  have hgone : (handleAuthorizationCodeGrant st f now iss at1 rt1).1.authorizationCodes
      f.code = none := by
    unfold handleAuthorizationCodeGrant
    rw [ha]
    simp only [finishCodeGrant]
    repeat' split
    all_goals simp
  refine ⟨hgone, ?_⟩
  generalize hst2 : (handleAuthorizationCodeGrant st f now iss at1 rt1).1 = st2 at hgone
  unfold handleAuthorizationCodeGrant
  rw [hsame, hgone]

/-- C6 witness: a concrete store with one issued code; redeeming twice
consumes the code and then fails with the invalid-grant 400. -/
theorem C6_authorization_code_single_redemption_witness :
    (handleAuthorizationCodeGrant
        ⟨fun _ => none,
          fun k => if k = ("codeA").data then
            some ⟨("codeA").data, ("cid").data, ("https://client/cb").data, ("mcp").data,
              [], [], [], 1000, ("user").data⟩ else none,
          fun _ => none, fun _ => none⟩
        ⟨("codeA").data, ("cid").data, [], ("https://client/cb").data, ("ver").data, [],
          none⟩ 0 ("https://hk").data ("tokA").data ("refA").data).1.authorizationCodes
      (("codeA").data) = none ∧
    (handleAuthorizationCodeGrant
        (handleAuthorizationCodeGrant
          ⟨fun _ => none,
            fun k => if k = ("codeA").data then
              some ⟨("codeA").data, ("cid").data, ("https://client/cb").data, ("mcp").data,
                [], [], [], 1000, ("user").data⟩ else none,
            fun _ => none, fun _ => none⟩
          ⟨("codeA").data, ("cid").data, [], ("https://client/cb").data, ("ver").data, [],
            none⟩ 0 ("https://hk").data ("tokA").data ("refA").data).1
        ⟨("codeA").data, ("cid").data, [], ("https://client/cb").data, ("ver").data, [],
          none⟩ 5 ("https://hk").data ("tokB").data ("refB").data).2
      = GrantOutcome.httpError 400 (("invalid authorization code").data) :=
  C6_authorization_code_single_redemption _ _ _ 0 5 _ _ _ _ _ _ (by decide) rfl

/-- C10: at the authorization_code grant, a non-empty `code_verifier` routes
client authentication through PKCE only (oauth.go:535-552), and a code stored
without a PKCE challenge makes `validatePKCE` succeed for every verifier
(oauth.go:709-711); so such a code is redeemed successfully even though the
supplied client secret differs from the registered confidential client's
secret — the secret is never compared. -/
theorem C10_pkce_bypasses_client_secret (st : OAuthStore) (f : TokenGrantForm)
    (now : Nat) (iss atk rtk : Str) (a : AuthCodeInfo) (client : ClientInfo)
    (hcode : st.authorizationCodes f.code = some a)
    (hfresh : ¬now > a.expiresAt)
    (hcid : a.clientID = (effectiveCreds f).1)
    (hver : f.codeVerifier ≠ [])
    (hnochal : a.codeChallenge = [])
    (hredir : a.redirectURI = f.redirectURI)
    (hclient : st.registeredClients (effectiveCreds f).1 = some client)
    (hconf : client.clientSecret ≠ [])
    (hwrong : (effectiveCreds f).2 ≠ client.clientSecret) :
    (handleAuthorizationCodeGrant st f now iss atk rtk).2 =
      GrantOutcome.issued atk rtk a.scope
        (if f.resource = [] then iss else f.resource) := by
  unfold handleAuthorizationCodeGrant
  rw [hcode]
  simp only [finishCodeGrant]
  rw [if_neg hfresh]
  rw [if_neg (by simp [hcid])]
  rw [if_neg hver]
  rw [if_neg (by simp [hnochal, validatePKCE])]
  rw [if_neg (by simp [hredir])]

/-- C10 witness: a concrete confidential client (secret `sek`), a code
without a challenge, and a redemption with verifier `verifier` and the wrong
secret `wrong` that nevertheless succeeds. -/
theorem C10_pkce_bypasses_client_secret_witness :
    (handleAuthorizationCodeGrant
        ⟨fun k => if k = ("cid").data then
            some ⟨("cid").data, ("sek").data, [("https://client/cb").data], ("n").data⟩
          else none,
          fun k => if k = ("c1").data then
            some ⟨("c1").data, ("cid").data, ("https://client/cb").data, ("mcp").data,
              [], [], [], 1000, ("u").data⟩ else none,
          fun _ => none, fun _ => none⟩
        ⟨("c1").data, ("cid").data, ("wrong").data, ("https://client/cb").data,
          ("verifier").data, [], none⟩ 0 ("https://hk").data ("tok").data
        ("ref").data).2 =
      GrantOutcome.issued (("tok").data) (("ref").data) (("mcp").data)
        (if ([] : Str) = [] then ("https://hk").data else []) :=
  C10_pkce_bypasses_client_secret _ _ 0 _ _ _
    ⟨("c1").data, ("cid").data, ("https://client/cb").data, ("mcp").data,
      [], [], [], 1000, ("u").data⟩
    ⟨("cid").data, ("sek").data, [("https://client/cb").data], ("n").data⟩
    (by decide) (by decide) (by decide) (by decide) (by decide) (by decide)
    (by decide) (by decide) (by decide)

/-! ## auth_middleware.go — bearer-token gate

The JWT library (`github.com/golang-jwt/jwt/v5`) is an external collaborator;
its parse result is modelled as an abstract `BearerToken` and the `jwt.Parse`
call as a caller-supplied function `parseJWT : Str → Option BearerToken`
(`none` = unparseable token string).  The keyfunc of auth_middleware.go:60-73
rejects non-RSA signing methods and a `kid` other than the live key id; the
library then checks the signature and the registered claims; `token.Valid`
requires all of these, which the `BearerToken` flags record. -/

/-- Abstract parse result of a bearer JWT. -/
structure BearerToken where
  methodIsRSA : Bool
  kidHeader : Option Str
  signatureValid : Bool
  claimsValid : Bool
  audClaim : Option Str
deriving DecidableEq

/-- The request data read by `requireAuth` (auth_middleware.go:14-51). -/
structure AuthRequest where
  path : Str
  authorization : Str
deriving DecidableEq

/-- Decision of the gate: pass the request to the wrapped handler, or send
401 with the given `WWW-Authenticate` header value. -/
inductive AuthDecision where
  | granted
  | unauthorized (wwwAuthenticate : Str) (status : Nat)
deriving DecidableEq

/-- The public paths allow-listed by the gate (auth_middleware.go:16-27). -/
def publicPaths : List Str :=
  [("/.well-known/oauth-protected-resource").data,
   ("/.well-known/oauth-authorization-server").data,
   ("/.well-known/openid-configuration").data,
   ("/oauth/jwks").data,
   ("/oauth/register").data,
   ("/oauth/authorize").data,
   ("/oauth/token").data,
   ("/oauth/login/google").data,
   ("/oauth/callback/google").data,
   ("/healthz").data]

/-- The `WWW-Authenticate` value built by `sendUnauthorized`
(auth_middleware.go:112): realm and as_uri only — no `resource` parameter. -/
def wwwAuthHeaderValue (iss : Str) : Str :=
  ("Bearer realm=\"").data ++ iss ++ ("\", as_uri=\"").data ++ iss ++
    ("/.well-known/oauth-authorization-server\"").data

/-- The observable effect of `sendUnauthorized` (auth_middleware.go:106-140):
status 401 with the challenge header.  (The body differs for HEAD/SSE
requests but the header and status do not.) -/
def sendUnauthorizedD (iss : Str) : AuthDecision :=
  AuthDecision.unauthorized (wwwAuthHeaderValue iss) 401

/-- Whether `jwt.Parse` with the keyfunc of auth_middleware.go:60-73 yields a
valid token: RSA signing method, matching `kid`, valid signature, valid
registered claims. -/
def tokenParseValid (t : BearerToken) (liveKid : Str) : Bool :=
  t.methodIsRSA && (t.kidHeader == some liveKid) && t.signatureValid && t.claimsValid

/-- Embedding of `requireAuth` (auth_middleware.go:13-103): public paths pass
through; a missing or non-`Bearer` Authorization header, an invalid token, or
an `aud` claim that is neither the issuer nor `mcp` produce the 401
challenge. -/
def requireAuthGate (parseJWT : Str → Option BearerToken) (req : AuthRequest)
    (liveKid iss : Str) : AuthDecision :=
  if req.path ∈ publicPaths then AuthDecision.granted
  else if req.authorization = [] then sendUnauthorizedD iss
  else
    match splitOnceChar req.authorization spaceCh with
    | none => sendUnauthorizedD iss
    | some parts =>
      if parts.1 ≠ ("Bearer").data then sendUnauthorizedD iss
      else
        match parseJWT parts.2 with
        | none => sendUnauthorizedD iss
        | some t =>
          if !tokenParseValid t liveKid then sendUnauthorizedD iss
          else
            if t.audClaim.getD [] ≠ iss ∧ t.audClaim.getD [] ≠ ("mcp").data then
              sendUnauthorizedD iss
            else AuthDecision.granted

/-- Auxiliary: splitting at the first separator after a separator-free head. -/
theorem splitOnceChar_append (sep : Char) (t : Str) :
    ∀ s : Str, s.contains sep = false → splitOnceChar (s ++ sep :: t) sep = some (s, t) := by
  intro s
  induction s with
  | nil =>
    intro _
    simp [splitOnceChar]
  | cons c rest ih =>
    intro h
    rw [List.contains_cons] at h
    have hparts := Bool.or_eq_false_iff.mp h
    have hc : ¬c = sep := by
      intro hcs
      subst hcs
      simp at hparts
    rw [List.cons_append, splitOnceChar]
    rw [if_neg hc, ih hparts.2]

/-- C8: with a bearer header and a parseable token, the gate on a non-public
path admits the request only if the token's signing method is RSA, its `kid`
is the live key id, its signature verifies, and its `aud` is the issuer or
the literal `mcp`; a token failing any of these receives the 401 challenge. -/
theorem C8_auth_gate_conditions (parseJWT : Str → Option BearerToken)
    (req : AuthRequest) (liveKid iss tokStr : Str) (t : BearerToken)
    (hpath : req.path ∉ publicPaths)
    (hauth : req.authorization = ("Bearer ").data ++ tokStr)
    (hparse : parseJWT tokStr = some t) :
    (requireAuthGate parseJWT req liveKid iss = AuthDecision.granted →
      (t.methodIsRSA = true ∧ t.kidHeader = some liveKid ∧ t.signatureValid = true ∧
        (t.audClaim.getD [] = iss ∨ t.audClaim.getD [] = ("mcp").data))) ∧
    (¬(t.methodIsRSA = true ∧ t.kidHeader = some liveKid ∧ t.signatureValid = true ∧
        (t.audClaim.getD [] = iss ∨ t.audClaim.getD [] = ("mcp").data)) →
      requireAuthGate parseJWT req liveKid iss =
        AuthDecision.unauthorized (wwwAuthHeaderValue iss) 401) := by
  have hne : (("Bearer ").data ++ tokStr : Str) ≠ [] := by
    have hB : (("Bearer ").data : Str) = 'B' :: ("earer ").data := by decide
    rw [hB, List.cons_append]
    simp
  have hsplit : splitOnceChar (("Bearer ").data ++ tokStr) spaceCh =
      some (("Bearer").data, tokStr) := by
    have hB2 : (("Bearer ").data : Str) = ("Bearer").data ++ spaceCh :: [] := by decide
    rw [hB2, List.append_assoc]
    exact splitOnceChar_append spaceCh tokStr ("Bearer").data (by decide)
  have hred : requireAuthGate parseJWT req liveKid iss =
      (if !tokenParseValid t liveKid then sendUnauthorizedD iss
       else if t.audClaim.getD [] ≠ iss ∧ t.audClaim.getD [] ≠ ("mcp").data then
         sendUnauthorizedD iss
       else AuthDecision.granted) := by
    unfold requireAuthGate
    rw [hauth, if_neg hpath, if_neg hne]
    rw [hsplit]
    simp only [hparse, ne_eq, not_true_eq_false, if_false]
  by_cases hv : tokenParseValid t liveKid = true
  · have hv4 : t.methodIsRSA = true ∧ t.kidHeader = some liveKid ∧
        t.signatureValid = true ∧ t.claimsValid = true := by
      simp only [tokenParseValid, Bool.and_eq_true, beq_iff_eq] at hv
      exact ⟨hv.1.1.1, hv.1.1.2, hv.1.2, hv.2⟩
    by_cases haud : t.audClaim.getD [] ≠ iss ∧ t.audClaim.getD [] ≠ ("mcp").data
    · have hE : requireAuthGate parseJWT req liveKid iss = sendUnauthorizedD iss := by
        rw [hred, hv]
        simp only [Bool.not_true, Bool.false_eq_true, if_false]
        rw [if_pos haud]
      constructor
      · intro hg
        rw [hE] at hg
        simp [sendUnauthorizedD] at hg
      · intro _
        exact hE
    · have hE : requireAuthGate parseJWT req liveKid iss = AuthDecision.granted := by
        rw [hred, hv]
        simp only [Bool.not_true, Bool.false_eq_true, if_false]
        rw [if_neg haud]
      have haud2 : t.audClaim.getD [] = iss ∨ t.audClaim.getD [] = ("mcp").data := by
        by_cases h1 : t.audClaim.getD [] = iss
        · exact Or.inl h1
        · refine Or.inr ?_
          by_contra h2
          exact haud ⟨h1, h2⟩
      constructor
      · intro _
        exact ⟨hv4.1, hv4.2.1, hv4.2.2.1, haud2⟩
      · intro hn
        exact absurd ⟨hv4.1, hv4.2.1, hv4.2.2.1, haud2⟩ hn
  · have hE : requireAuthGate parseJWT req liveKid iss = sendUnauthorizedD iss := by
      rw [hred]
      rw [Bool.not_eq_true] at hv
      rw [hv]
      simp
    constructor
    · intro hg
      rw [hE] at hg
      simp [sendUnauthorizedD] at hg
    · intro _
      exact hE

/-- C8 witness data: a parse oracle recognising the token string `tok`. -/
def c8Parse : Str → Option BearerToken :=
  fun s => if s = ("tok").data then
    some ⟨true, some (("kid1").data), true, true, some (("mcp").data)⟩ else none

/-- C8 witness data: a request to `/` with header `Bearer tok`. -/
def c8Req : AuthRequest := ⟨("/").data, ("Bearer tok").data⟩

/-- C8 witness data: the parsed token behind `tok`. -/
def c8Tok : BearerToken := ⟨true, some (("kid1").data), true, true, some (("mcp").data)⟩

/-- C8 witness: the gate conditions at the concrete request `Bearer tok`. -/
theorem C8_auth_gate_conditions_witness :
    (requireAuthGate c8Parse c8Req (("kid1").data) (("https://hk").data) =
        AuthDecision.granted →
      (c8Tok.methodIsRSA = true ∧ c8Tok.kidHeader = some (("kid1").data) ∧
        c8Tok.signatureValid = true ∧
        (c8Tok.audClaim.getD [] = ("https://hk").data ∨
          c8Tok.audClaim.getD [] = ("mcp").data))) ∧
    (¬(c8Tok.methodIsRSA = true ∧ c8Tok.kidHeader = some (("kid1").data) ∧
        c8Tok.signatureValid = true ∧
        (c8Tok.audClaim.getD [] = ("https://hk").data ∨
          c8Tok.audClaim.getD [] = ("mcp").data)) →
      requireAuthGate c8Parse c8Req (("kid1").data) (("https://hk").data) =
        AuthDecision.unauthorized (wwwAuthHeaderValue (("https://hk").data)) 401) :=
  C8_auth_gate_conditions c8Parse c8Req (("kid1").data) (("https://hk").data)
    (("tok").data) c8Tok (by decide) (by decide) (by decide)

/-- C9 counterexample: the challenge sent for an unauthenticated request to
`/sse` is a 401 whose `WWW-Authenticate` value does not contain a
`resource=` parameter at all (the format string at auth_middleware.go:112
names only `realm` and `as_uri`), refuting the claim that the header carries
`resource="<iss>"`. -/
theorem C9_challenge_lacks_resource_param :
    requireAuthGate (fun _ => none) ⟨("/sse").data, []⟩ (("kid1").data)
        (("https://hk.example").data) =
      AuthDecision.unauthorized (wwwAuthHeaderValue (("https://hk.example").data)) 401 ∧
    containsSub (wwwAuthHeaderValue (("https://hk.example").data)) (("resource=").data)
      = false := by decide

/-- C9 amended: every 401 emitted by the gate carries status 401 and the
header value `Bearer realm="<iss>", as_uri="<iss>/.well-known/oauth-authorization-server"`
— realm and as_uri only, with no `resource` parameter. -/
theorem C9_unauthorized_header_form (parseJWT : Str → Option BearerToken)
    (req : AuthRequest) (liveKid iss hdr : Str) (status : Nat)
    (h : requireAuthGate parseJWT req liveKid iss =
      AuthDecision.unauthorized hdr status) :
    status = 401 ∧
    hdr = ("Bearer realm=\"").data ++ iss ++ ("\", as_uri=\"").data ++ iss ++
      ("/.well-known/oauth-authorization-server\"").data := by
  unfold requireAuthGate at h
  repeat' split at h
  all_goals
    simp only [sendUnauthorizedD, wwwAuthHeaderValue,
      AuthDecision.unauthorized.injEq, reduceCtorEq] at h
  all_goals exact ⟨h.2.symm, h.1.symm⟩

/-- C9 amended witness: the header form at a concrete unauthenticated
request. -/
theorem C9_unauthorized_header_form_witness :
    (401 : Nat) = 401 ∧
    wwwAuthHeaderValue (("https://hk2").data) =
      ("Bearer realm=\"").data ++ ("https://hk2").data ++ ("\", as_uri=\"").data ++
        ("https://hk2").data ++
        ("/.well-known/oauth-authorization-server\"").data :=
  C9_unauthorized_header_form (fun _ => none) ⟨("/mcp").data, []⟩ (("kid1").data)
    (("https://hk2").data) (wwwAuthHeaderValue (("https://hk2").data)) 401 (by decide)
